import Mathlib

/-!
Shallow embedding of the terminal-capability driver of `rustty`
(`src/core/driver.rs`): the compiled-in key table, escape-sequence map
construction (`Driver::new` / `populate_escape_seq_map`), input decoding
(`Driver::get_event`) and capability rendering (`DevFn`, `Driver::get`).

Bytes are modelled as `Nat` (values < 256 in practice), Rust `String`s as
`List Char`, the terminfo `strings` table as an association list from
capability name to byte template, and the `HashMap<String, Event>` as an
association list with replacing insert.  Fallible construction returns
`Except`; the panics in `get_event` (`expect` on an empty buffer) and in
`Driver::get` (`unwrap` of template expansion) are modelled by an outer
`Option` layer whose `none` means "panic".
-/

namespace Rustty

/-- Modelled from the spec: the abstract input `Event` type of
`core/input.rs` (that file is not part of the provided sources; the
variants are those used by `core/driver.rs` and §3 of the spec):
`Char` of a Unicode scalar, `Function(N)`, and the eight named
navigation events. -/
inductive Event where
  | Char (c : Char)
  | Function (n : Nat)
  | Up
  | Down
  | Left
  | Right
  | PageUp
  | PageDown
  | Home
  | End
  deriving DecidableEq, Repr

/-- One entry of the key table: `(event, variable_name, cap_name)`. -/
structure KeyEntry where
  event : Event
  variable_name : String
  cap_name : String
  deriving DecidableEq, Repr

/-- The compiled-in key table `KEYS` of `driver.rs` (lines 18–39). -/
def KEYS : List KeyEntry := [
  ⟨Event.Function 1, "key_f1", "kf1"⟩,
  ⟨Event.Function 2, "key_f2", "kf2"⟩,
  ⟨Event.Function 3, "key_f3", "kf3"⟩,
  ⟨Event.Function 4, "key_f4", "kf4"⟩,
  ⟨Event.Function 5, "key_f5", "kf5"⟩,
  ⟨Event.Function 6, "key_f6", "kf6"⟩,
  ⟨Event.Function 7, "key_f7", "kf7"⟩,
  ⟨Event.Function 8, "key_f8", "kf8"⟩,
  ⟨Event.Function 9, "key_f9", "kf9"⟩,
  ⟨Event.Function 10, "key_f10", "kf10"⟩,
  ⟨Event.Function 11, "key_f11", "kf11"⟩,
  ⟨Event.Function 12, "key_f12", "kf12"⟩,
  ⟨Event.Up, "key_up", "kcuu1"⟩,
  ⟨Event.Down, "key_down", "kcud1"⟩,
  ⟨Event.Left, "key_left", "kcub1"⟩,
  ⟨Event.Right, "key_right", "kcuf1"⟩,
  ⟨Event.PageUp, "key_ppage", "kpp"⟩,
  ⟨Event.PageDown, "key_npage", "knp"⟩,
  ⟨Event.Home, "key_home", "khome"⟩,
  ⟨Event.End, "key_end", "kend"⟩]

/-- The constant `ESCAPE: char = '\u{1b}'`. -/
def ESCAPE : Char := Char.ofNat 0x1b

/-- The terminfo `strings` table (`TermInfo.strings`): capability name to
raw byte template.  Modelled as an association list; `get` is keyed
lookup, like `HashMap::get`. -/
abbrev Strings : Type := List (String × List Nat)

/-- Lookup `strings.get(name)` of the terminfo table. -/
def Strings.get (s : Strings) (name : String) : Option (List Nat) :=
  List.lookup name s

/-- Modelled from the spec and the Rust standard library:
`str::from_utf8` followed by `.chars()` — decode a byte sequence as
UTF-8 text, rejecting ill-formed sequences (continuation bytes out of
place, overlong encodings, surrogates, values above U+10FFFF), exactly
the sequences `str::from_utf8` rejects. -/
def utf8Decode : List Nat → Option (List Char)
  | [] => some []
  | b :: bs =>
    if b < 0x80 then
      (utf8Decode bs).map (fun cs => Char.ofNat b :: cs)
    else if b < 0xC2 then
      none
    else if b < 0xE0 then
      match bs with
      | b1 :: bs1 =>
        if 0x80 ≤ b1 ∧ b1 < 0xC0 then
          (utf8Decode bs1).map (fun cs =>
            Char.ofNat ((b - 0xC0) * 0x40 + (b1 - 0x80)) :: cs)
        else none
      | _ => none
    else if b < 0xF0 then
      match bs with
      | b1 :: b2 :: bs2 =>
        if (0x80 ≤ b1 ∧ b1 < 0xC0) ∧ (0x80 ≤ b2 ∧ b2 < 0xC0) ∧
           (b = 0xE0 → 0xA0 ≤ b1) ∧ (b = 0xED → b1 < 0xA0) then
          (utf8Decode bs2).map (fun cs =>
            Char.ofNat ((b - 0xE0) * 0x1000 + (b1 - 0x80) * 0x40 + (b2 - 0x80)) :: cs)
        else none
      | _ => none
    else if b < 0xF5 then
      match bs with
      | b1 :: b2 :: b3 :: bs3 =>
        if (0x80 ≤ b1 ∧ b1 < 0xC0) ∧ (0x80 ≤ b2 ∧ b2 < 0xC0) ∧
           (0x80 ≤ b3 ∧ b3 < 0xC0) ∧
           (b = 0xF0 → 0x90 ≤ b1) ∧ (b = 0xF4 → b1 < 0x90) then
          (utf8Decode bs3).map (fun cs =>
            Char.ofNat ((b - 0xF0) * 0x40000 + (b1 - 0x80) * 0x1000 +
              (b2 - 0x80) * 0x40 + (b3 - 0x80)) :: cs)
        else none
      | _ => none
    else none

/-- The escape-sequence map `HashMap<String, Event>`, as an association
list from decoded character sequence to event. -/
abbrev EscMap : Type := List (List Char × Event)

/-- Insert with `HashMap::insert` semantics: the new binding replaces any existing binding of
the same key. -/
def EscMap.insert (m : EscMap) (k : List Char) (v : Event) : EscMap :=
  (k, v) :: m.filter (fun p => p.1 ≠ k)

/-- Lookup, as `HashMap::get`. -/
def EscMap.get (m : EscMap) (k : List Char) : Option Event :=
  List.lookup k m

/-- The construction errors of `Driver::new`: `ErrorKind::NotFound` for a
key whose capability is missing under both names (carrying the two
names, as in the formatted message), `ErrorKind::InvalidData` for a
template that is not valid UTF-8. -/
inductive DriverError where
  | notFound (variable_name cap_name : String)
  | invalidData (variable_name cap_name : String)
  deriving DecidableEq, Repr

/-- The byte template an entry resolves to:
`strings.get(variable).or_else(|| strings.get(cap_name))`. -/
def resolveBytes (s : Strings) (e : KeyEntry) : Option (List Nat) :=
  (s.get e.variable_name).orElse (fun _ => s.get e.cap_name)

/-- The decoded character sequence an entry resolves to: the resolved
byte template, decoded as UTF-8. -/
def resolveSeq (s : Strings) (e : KeyEntry) : Option (List Char) :=
  match resolveBytes s e with
  | none => none
  | some bytes => utf8Decode bytes

/-- The loop body of `populate_escape_seq_map` for one key-table entry:
resolve the template (primary name, then fallback), fail with `NotFound`
if neither exists, decode it as UTF-8, fail with `InvalidData` if
ill-formed, and insert the decoded sequence. -/
def populateStep (s : Strings) (m : EscMap) (e : KeyEntry) :
    Except DriverError EscMap :=
  match resolveBytes s e with
  | none => .error (.notFound e.variable_name e.cap_name)
  | some bytes =>
    match utf8Decode bytes with
    | none => .error (.invalidData e.variable_name e.cap_name)
    | some seq => .ok (m.insert seq e.event)

/-- The loop of `populate_escape_seq_map` over a table suffix, carried
out from an accumulated map. -/
def populateAux (s : Strings) : List KeyEntry → EscMap →
    Except DriverError EscMap
  | [], m => .ok m
  | e :: ks, m =>
    match populateStep s m e with
    | .error err => .error err
    | .ok m1 => populateAux s ks m1

/-- The method `Driver::populate_escape_seq_map`: fold the loop over the whole
`KEYS` table starting from the empty map. -/
def populate_escape_seq_map (s : Strings) : Except DriverError EscMap :=
  populateAux s KEYS []

/-- The `Driver`: the resolved terminfo strings table and the
escape-sequence map built at construction. -/
structure Driver where
  strings : Strings
  escape_seq_map : EscMap
  deriving DecidableEq, Repr

/-- The constructor `Driver::new`, taking the already-loaded terminfo strings table
(`TermInfo::from_env` is the external capability source): build the
escape-sequence map, failing if construction of the map fails. -/
def Driver.new (s : Strings) : Except DriverError Driver :=
  match populate_escape_seq_map s with
  | .error err => .error err
  | .ok m => .ok ⟨s, m⟩

/-- The method `Driver::get_event`.  The outer `Option` models the
`expect("got empty string")` panic: `none` is the panic on an empty
buffer; otherwise `some r` where `r` is the returned
`Option<Event>`. -/
def Driver.get_event (d : Driver) (buf : List Char) :
    Option (Option Event) :=
  match buf with
  | [] => none
  | first :: rest =>
    some (if first = ESCAPE then
            if rest = [] then some (Event.Char first)
            else d.escape_seq_map.get buf
          else some (Event.Char first))

/-- The `DevFn` enum of rendering capabilities. -/
inductive DevFn where
  | EnterCa
  | ExitCa
  | EnterXmit
  | ExitXmit
  | ShowCursor
  | HideCursor
  | SetCursor (x y : Nat)
  | Clear
  | Reset
  | Underline
  | Bold
  | Blink
  | Reverse
  | SetFg (attr : Nat)
  | SetBg (attr : Nat)
  deriving DecidableEq, Repr

/-- The method `DevFn::as_str`: the terminfo capability name of each variant (the
module-level string constants of `driver.rs`). -/
def DevFn.as_str : DevFn → String
  | .EnterCa => "smcup"
  | .ExitCa => "rmcup"
  | .EnterXmit => "smkx"
  | .ExitXmit => "rmkx"
  | .ShowCursor => "cnorm"
  | .HideCursor => "civis"
  | .SetCursor _ _ => "cup"
  | .Clear => "clear"
  | .Reset => "sgr0"
  | .Underline => "smul"
  | .Bold => "bold"
  | .Blink => "blink"
  | .Reverse => "rev"
  | .SetFg _ => "setaf"
  | .SetBg _ => "setab"

/-- Decimal digit characters of a natural number, most significant
first (`Nat.toDigits 10`), as bytes. -/
def natDecimal (n : Nat) : List Nat :=
  (Nat.toDigits 10 n).map Char.toNat

/-- Decimal rendering of an integer parameter, as `%d` of the terminfo
parameter language prints it. -/
def intDecimal : Int → List Nat
  | .ofNat n => natDecimal n
  | .negSucc n => 0x2d :: natDecimal (n + 1)

/-- Modelled from the spec: the parameter-substitution mini-language
evaluator (`parm::expand` of the external `term` crate — an external
collaborator, not part of this repository), on the subset of terminfo
parameter codes that the standard cursor/color templates use: literal
bytes, `%%`, `%i` (increment the first two parameters), `%p1`–`%p9`
(push a parameter), `%d` (pop and print in decimal), `%c` (pop and
print as a character).  Unsupported codes make evaluation fail
(`none`), which `Driver::get` turns into the `unwrap` panic. -/
def expand : List Nat → List Int → List Int → Option (List Nat)
  | [], _, _ => some []
  | 0x25 :: rest, params, stack =>
    match rest with
    | 0x25 :: rest1 =>
      (expand rest1 params stack).map (fun out => 0x25 :: out)
    | 0x69 :: rest1 =>
      match params with
      | p1 :: p2 :: ps => expand rest1 ((p1 + 1) :: (p2 + 1) :: ps) stack
      | [p1] => expand rest1 [p1 + 1] stack
      | [] => expand rest1 [] stack
    | 0x70 :: n :: rest1 =>
      if 0x31 ≤ n ∧ n ≤ 0x39 then
        match params.get? (n - 0x31) with
        | some p => expand rest1 params (p :: stack)
        | none => expand rest1 params (0 :: stack)
      else none
    | 0x64 :: rest1 =>
      match stack with
      | v :: stack1 =>
        (expand rest1 params stack1).map (fun out => intDecimal v ++ out)
      | [] => (expand rest1 params []).map (fun out => intDecimal 0 ++ out)
    | 0x63 :: rest1 =>
      match stack with
      | v :: stack1 =>
        (expand rest1 params stack1).map (fun out => v.toNat :: out)
      | [] => none
    | _ => none
  | b :: rest, params, stack =>
    (expand rest params stack).map (fun out => b :: out)

/-- Rust's truncating `as i32` cast of a `usize` value (the cast at
`driver.rs:181`): keep the low 32 bits and reinterpret them as a
two's-complement signed 32-bit integer, so values at or above `2^31`
wrap to negative numbers. -/
def usizeAsI32 (n : Nat) : Int :=
  if n % 2 ^ 32 < 2 ^ 31 then Int.ofNat (n % 2 ^ 32)
  else Int.ofNat (n % 2 ^ 32) - 2 ^ 32

/-- Rust's `as i32` cast of a `u8` value (the cast at `driver.rs:176`).
The `% 2^8` makes the `u8` domain explicit, since the embedding carries
the attribute as a `Nat`: on the values a `u8` can hold the cast is the
identity and never wraps. -/
def u8AsI32 (n : Nat) : Int :=
  Int.ofNat (n % 2 ^ 8)

/-- The method `Driver::get`: look the variant's capability name up in the strings
table; `none` (outer layer `some none`) if absent; otherwise expand the
template with parameters `[attr as i32]` for `SetFg`/`SetBg`,
`[y as i32, x as i32]` for `SetCursor(x, y)` — the truncating casts of
`driver.rs:176,181` — or return it unchanged.  The outer `Option`
models the `unwrap` panic on a failed expansion: outer `none` is the
panic. -/
def Driver.get (d : Driver) (dfn : DevFn) : Option (Option (List Nat)) :=
  match d.strings.get dfn.as_str with
  | none => some none
  | some cap =>
    match dfn with
    | .SetFg attr => (expand cap [u8AsI32 attr] []).map some
    | .SetBg attr => (expand cap [u8AsI32 attr] []).map some
    | .SetCursor x y =>
        (expand cap [usizeAsI32 y, usizeAsI32 x] []).map some
    | _ => some (some cap)

/-- Tests whether an error is the invalid-UTF-8 construction error
(`ErrorKind::InvalidData`). -/
def DriverError.isInvalidData : DriverError → Bool
  | .invalidData _ _ => true
  | _ => false

/-- Whether a `Driver::new` outcome is the invalid-encoding failure. -/
def isInvalidDataError : Except DriverError Driver → Bool
  | .error e => e.isInvalidData
  | .ok _ => false

/-- Byte values turned into the characters they decode to as ASCII. -/
def chars (bs : List Nat) : List Char := bs.map Char.ofNat

/-- The standard xterm `cup` capability template
`\x1b[%i%p1%d;%p2%dH`. -/
def stdCupTemplate : List Nat :=
  [0x1b, 0x5b, 0x25, 0x69, 0x25, 0x70, 0x31, 0x25, 0x64, 0x3b,
   0x25, 0x70, 0x32, 0x25, 0x64, 0x48]

/-- A concrete xterm-style strings table providing all twenty key
capabilities of the key table (under their cap names), with pairwise
distinct escape sequences. -/
def xtermStrings : Strings := [
  ("kf1", [0x1b, 0x4f, 0x50]),
  ("kf2", [0x1b, 0x4f, 0x51]),
  ("kf3", [0x1b, 0x4f, 0x52]),
  ("kf4", [0x1b, 0x4f, 0x53]),
  ("kf5", [0x1b, 0x5b, 0x31, 0x35, 0x7e]),
  ("kf6", [0x1b, 0x5b, 0x31, 0x37, 0x7e]),
  ("kf7", [0x1b, 0x5b, 0x31, 0x38, 0x7e]),
  ("kf8", [0x1b, 0x5b, 0x31, 0x39, 0x7e]),
  ("kf9", [0x1b, 0x5b, 0x32, 0x30, 0x7e]),
  ("kf10", [0x1b, 0x5b, 0x32, 0x31, 0x7e]),
  ("kf11", [0x1b, 0x5b, 0x32, 0x33, 0x7e]),
  ("kf12", [0x1b, 0x5b, 0x32, 0x34, 0x7e]),
  ("kcuu1", [0x1b, 0x4f, 0x41]),
  ("kcud1", [0x1b, 0x4f, 0x42]),
  ("kcub1", [0x1b, 0x4f, 0x44]),
  ("kcuf1", [0x1b, 0x4f, 0x43]),
  ("kpp", [0x1b, 0x5b, 0x35, 0x7e]),
  ("knp", [0x1b, 0x5b, 0x36, 0x7e]),
  ("khome", [0x1b, 0x5b, 0x48]),
  ("kend", [0x1b, 0x5b, 0x46])]

/-- The escape-sequence map `Driver::new` builds from
`xtermStrings` (later table entries sit nearer the head of the
association list). -/
def xtermMap : EscMap := [
  (chars [27, 91, 70], Event.End),
  (chars [27, 91, 72], Event.Home),
  (chars [27, 91, 54, 126], Event.PageDown),
  (chars [27, 91, 53, 126], Event.PageUp),
  (chars [27, 79, 67], Event.Right),
  (chars [27, 79, 68], Event.Left),
  (chars [27, 79, 66], Event.Down),
  (chars [27, 79, 65], Event.Up),
  (chars [27, 91, 50, 52, 126], Event.Function 12),
  (chars [27, 91, 50, 51, 126], Event.Function 11),
  (chars [27, 91, 50, 49, 126], Event.Function 10),
  (chars [27, 91, 50, 48, 126], Event.Function 9),
  (chars [27, 91, 49, 57, 126], Event.Function 8),
  (chars [27, 91, 49, 56, 126], Event.Function 7),
  (chars [27, 91, 49, 55, 126], Event.Function 6),
  (chars [27, 91, 49, 53, 126], Event.Function 5),
  (chars [27, 79, 83], Event.Function 4),
  (chars [27, 79, 82], Event.Function 3),
  (chars [27, 79, 81], Event.Function 2),
  (chars [27, 79, 80], Event.Function 1)]

/-- The driver built from `xtermStrings`. -/
def xtermDriver : Driver := ⟨xtermStrings, xtermMap⟩

/-- Like `xtermStrings`, except `kf1` and `kf2` share the same escape
sequence `ESC O P`. -/
def dupStrings : Strings := [
  ("kf1", [0x1b, 0x4f, 0x50]),
  ("kf2", [0x1b, 0x4f, 0x50]),
  ("kf3", [0x1b, 0x4f, 0x52]),
  ("kf4", [0x1b, 0x4f, 0x53]),
  ("kf5", [0x1b, 0x5b, 0x31, 0x35, 0x7e]),
  ("kf6", [0x1b, 0x5b, 0x31, 0x37, 0x7e]),
  ("kf7", [0x1b, 0x5b, 0x31, 0x38, 0x7e]),
  ("kf8", [0x1b, 0x5b, 0x31, 0x39, 0x7e]),
  ("kf9", [0x1b, 0x5b, 0x32, 0x30, 0x7e]),
  ("kf10", [0x1b, 0x5b, 0x32, 0x31, 0x7e]),
  ("kf11", [0x1b, 0x5b, 0x32, 0x33, 0x7e]),
  ("kf12", [0x1b, 0x5b, 0x32, 0x34, 0x7e]),
  ("kcuu1", [0x1b, 0x4f, 0x41]),
  ("kcud1", [0x1b, 0x4f, 0x42]),
  ("kcub1", [0x1b, 0x4f, 0x44]),
  ("kcuf1", [0x1b, 0x4f, 0x43]),
  ("kpp", [0x1b, 0x5b, 0x35, 0x7e]),
  ("knp", [0x1b, 0x5b, 0x36, 0x7e]),
  ("khome", [0x1b, 0x5b, 0x48]),
  ("kend", [0x1b, 0x5b, 0x46])]

/-- The escape-sequence map built from `dupStrings`: `ESC O P` maps to
`Function 2`, the later of the two colliding entries. -/
def dupMap : EscMap := [
  (chars [27, 91, 70], Event.End),
  (chars [27, 91, 72], Event.Home),
  (chars [27, 91, 54, 126], Event.PageDown),
  (chars [27, 91, 53, 126], Event.PageUp),
  (chars [27, 79, 67], Event.Right),
  (chars [27, 79, 68], Event.Left),
  (chars [27, 79, 66], Event.Down),
  (chars [27, 79, 65], Event.Up),
  (chars [27, 91, 50, 52, 126], Event.Function 12),
  (chars [27, 91, 50, 51, 126], Event.Function 11),
  (chars [27, 91, 50, 49, 126], Event.Function 10),
  (chars [27, 91, 50, 48, 126], Event.Function 9),
  (chars [27, 91, 49, 57, 126], Event.Function 8),
  (chars [27, 91, 49, 56, 126], Event.Function 7),
  (chars [27, 91, 49, 55, 126], Event.Function 6),
  (chars [27, 91, 49, 53, 126], Event.Function 5),
  (chars [27, 79, 83], Event.Function 4),
  (chars [27, 79, 82], Event.Function 3),
  (chars [27, 79, 80], Event.Function 2)]

/-- The driver built from `dupStrings`. -/
def dupDriver : Driver := ⟨dupStrings, dupMap⟩

/-- Like `xtermStrings`, but the first key-table entry (`kf1`) is
absent entirely while a later entry (`kf2`) carries bytes that are not
valid UTF-8. -/
def missingStrings : Strings := [
  ("kf2", [0xFF]),
  ("kf3", [0x1b, 0x4f, 0x52]),
  ("kf4", [0x1b, 0x4f, 0x53]),
  ("kf5", [0x1b, 0x5b, 0x31, 0x35, 0x7e]),
  ("kf6", [0x1b, 0x5b, 0x31, 0x37, 0x7e]),
  ("kf7", [0x1b, 0x5b, 0x31, 0x38, 0x7e]),
  ("kf8", [0x1b, 0x5b, 0x31, 0x39, 0x7e]),
  ("kf9", [0x1b, 0x5b, 0x32, 0x30, 0x7e]),
  ("kf10", [0x1b, 0x5b, 0x32, 0x31, 0x7e]),
  ("kf11", [0x1b, 0x5b, 0x32, 0x33, 0x7e]),
  ("kf12", [0x1b, 0x5b, 0x32, 0x34, 0x7e]),
  ("kcuu1", [0x1b, 0x4f, 0x41]),
  ("kcud1", [0x1b, 0x4f, 0x42]),
  ("kcub1", [0x1b, 0x4f, 0x44]),
  ("kcuf1", [0x1b, 0x4f, 0x43]),
  ("kpp", [0x1b, 0x5b, 0x35, 0x7e]),
  ("knp", [0x1b, 0x5b, 0x36, 0x7e]),
  ("khome", [0x1b, 0x5b, 0x48]),
  ("kend", [0x1b, 0x5b, 0x46])]

/-- Like `xtermStrings`, but `kf2` carries bytes that are not valid
UTF-8 (every entry still resolves to some template). -/
def invalidStrings : Strings := [
  ("kf1", [0x1b, 0x4f, 0x50]),
  ("kf2", [0xFF]),
  ("kf3", [0x1b, 0x4f, 0x52]),
  ("kf4", [0x1b, 0x4f, 0x53]),
  ("kf5", [0x1b, 0x5b, 0x31, 0x35, 0x7e]),
  ("kf6", [0x1b, 0x5b, 0x31, 0x37, 0x7e]),
  ("kf7", [0x1b, 0x5b, 0x31, 0x38, 0x7e]),
  ("kf8", [0x1b, 0x5b, 0x31, 0x39, 0x7e]),
  ("kf9", [0x1b, 0x5b, 0x32, 0x30, 0x7e]),
  ("kf10", [0x1b, 0x5b, 0x32, 0x31, 0x7e]),
  ("kf11", [0x1b, 0x5b, 0x32, 0x33, 0x7e]),
  ("kf12", [0x1b, 0x5b, 0x32, 0x34, 0x7e]),
  ("kcuu1", [0x1b, 0x4f, 0x41]),
  ("kcud1", [0x1b, 0x4f, 0x42]),
  ("kcub1", [0x1b, 0x4f, 0x44]),
  ("kcuf1", [0x1b, 0x4f, 0x43]),
  ("kpp", [0x1b, 0x5b, 0x35, 0x7e]),
  ("knp", [0x1b, 0x5b, 0x36, 0x7e]),
  ("khome", [0x1b, 0x5b, 0x48]),
  ("kend", [0x1b, 0x5b, 0x46])]

/-- A strings table carrying only the standard cursor-positioning
template. -/
def cupStrings : Strings := [("cup", stdCupTemplate)]

/-- A driver whose escape-sequence map holds a sequence that does not
begin with ESCAPE (the single character `a`). -/
def charDriver : Driver := ⟨[], [(chars [0x61], Event.Function 1)]⟩

/-- A driver with an empty strings table and an empty map. -/
def emptyDriver : Driver := ⟨[], []⟩

/-! ### Association-list map lemmas -/

/-- Filtering out the bindings of key `k` does not change lookup at any
other key. -/
theorem lookup_filter_ne (l : EscMap) (k k' : List Char) (h : k' ≠ k) :
    List.lookup k' (l.filter (fun p => p.1 ≠ k)) = List.lookup k' l := by
  induction l with
  | nil => rfl
  | cons p rest ih =>
    rcases p with ⟨pk, pv⟩
    simp only [ne_eq, decide_not] at ih ⊢
    by_cases hp : pk = k
    · subst hp
      have hne : (k' == pk) = false := by simpa using h
      simp [List.filter_cons, List.lookup, hne, ih]
    · by_cases hk : k' = pk
      · subst hk
        simp [List.filter_cons, hp, List.lookup]
      · have hne : (k' == pk) = false := by simpa using hk
        simp [List.filter_cons, hp, List.lookup, hne, ih]

/-- The `HashMap::insert` semantics on lookups: the inserted key now maps to
the new value, all other keys are unchanged. -/
theorem EscMap.get_insert (m : EscMap) (k k' : List Char) (v : Event) :
    (m.insert k v).get k' = if k' = k then some v else m.get k' := by
  by_cases h : k' = k
  · simp [EscMap.insert, EscMap.get, List.lookup, h]
  · have hne : (k' == k) = false := by simpa using h
    have h2 := lookup_filter_ne m k k' h
    simp only [ne_eq, decide_not] at h2
    simp only [EscMap.insert, EscMap.get, List.lookup, hne, h, if_false, ne_eq,
      decide_not]
    exact h2

/-! ### Characterising the populate loop -/

/-- The event of the last entry of `ks` (in iteration order) whose
resolved, decoded sequence is `seq`, if any: later entries take
precedence over earlier ones. -/
def lastRegistered (s : Strings) (ks : List KeyEntry) (seq : List Char) :
    Option Event :=
  match ks with
  | [] => none
  | e :: rest =>
    match lastRegistered s rest seq with
    | some v => some v
    | none => if resolveSeq s e = some seq then some e.event else none

/-- The value of `lastRegistered` is the event of the last table entry resolving to
`seq`, in the `getLast?`-of-`filter` formulation. -/
theorem lastRegistered_eq_getLast (s : Strings) (ks : List KeyEntry)
    (seq : List Char) :
    lastRegistered s ks seq =
      ((ks.filter (fun e => resolveSeq s e = some seq)).getLast?).map
        (fun e => e.event) := by
  induction ks with
  | nil => rfl
  | cons e rest ih =>
    by_cases hp : resolveSeq s e = some seq
    · cases hrf : rest.filter (fun e => resolveSeq s e = some seq) with
      | nil =>
        have hlr : lastRegistered s rest seq = none := by
          rw [ih, hrf]; rfl
        simp [lastRegistered, hlr, hp, List.filter_cons, hrf]
      | cons f fs =>
        have hlr : lastRegistered s rest seq =
            ((f :: fs).getLast?).map (fun e => e.event) := by
          rw [ih, hrf]
        have hcons : (e :: f :: fs).getLast? = (f :: fs).getLast? :=
          List.getLast?_cons_cons
        cases hgl : (f :: fs).getLast? with
        | none => simp at hgl
        | some g =>
          simp [lastRegistered, hlr, hgl, List.filter_cons, hp, hrf, hcons]
    · have hfc : (e :: rest).filter (fun e => resolveSeq s e = some seq) =
          rest.filter (fun e => resolveSeq s e = some seq) := by
        simp [List.filter_cons, hp]
      rw [hfc, ← ih]
      cases hlr : lastRegistered s rest seq with
      | none => simp [lastRegistered, hlr, hp]
      | some v => simp [lastRegistered, hlr]

/-- A `lastRegistered` result comes from an entry of the table. -/
theorem lastRegistered_eq_some (s : Strings) (ks : List KeyEntry)
    (seq : List Char) (v : Event) (h : lastRegistered s ks seq = some v) :
    ∃ e ∈ ks, resolveSeq s e = some seq ∧ e.event = v := by
  induction ks with
  | nil => exact absurd h (by simp [lastRegistered])
  | cons e rest ih =>
    cases hlr : lastRegistered s rest seq with
    | some w =>
      have hw : w = v := by
        have h2 := h
        simp only [lastRegistered, hlr] at h2
        simpa using h2
      subst hw
      obtain ⟨e', he', hseq, hev⟩ := ih hlr
      exact ⟨e', List.mem_cons_of_mem e he', hseq, hev⟩
    | none =>
      simp only [lastRegistered, hlr] at h
      by_cases hp : resolveSeq s e = some seq
      · refine ⟨e, List.mem_cons_self e rest, hp, ?_⟩
        simpa [hp] using h
      · simp [hp] at h

/-- If no entry of `ks` resolves to `seq`, `lastRegistered` is `none` —
and conversely. -/
theorem lastRegistered_eq_none (s : Strings) (ks : List KeyEntry)
    (seq : List Char) (h : lastRegistered s ks seq = none) :
    ∀ e ∈ ks, resolveSeq s e ≠ some seq := by
  induction ks with
  | nil => intro e he; simp at he
  | cons e rest ih =>
    cases hlr : lastRegistered s rest seq with
    | some w => simp only [lastRegistered, hlr] at h; simp at h
    | none =>
      simp only [lastRegistered, hlr] at h
      intro e' he'
      rcases List.mem_cons.mp he' with rfl | hmem
      · intro hc; simp [hc] at h
      · exact ih hlr e' hmem

/-- One step of the populate loop on an entry whose template resolves
and decodes performs the insert and succeeds. -/
theorem populateStep_ok (s : Strings) (m : EscMap) (e : KeyEntry)
    (seq : List Char) (h : resolveSeq s e = some seq) :
    populateStep s m e = .ok (m.insert seq e.event) := by
  cases hrb : resolveBytes s e with
  | none =>
    simp only [resolveSeq, hrb] at h
    simp at h
  | some bytes =>
    simp only [resolveSeq, hrb] at h
    simp [populateStep, hrb, h]

/-- Inversion: a successful populate step means the entry resolved and
decoded, and the result is the corresponding insert. -/
theorem populateStep_ok_inv (s : Strings) (m0 m1 : EscMap) (e : KeyEntry)
    (h : populateStep s m0 e = .ok m1) :
    ∃ seq, resolveSeq s e = some seq ∧ m1 = m0.insert seq e.event := by
  rw [populateStep] at h
  split at h
  · exact absurd h (by simp)
  · rename_i bytes hrb
    split at h
    · exact absurd h (by simp)
    · rename_i seq hu
      refine ⟨seq, ?_, (Except.ok.inj h).symm⟩
      simp [resolveSeq, hrb, hu]

/-- The populate loop succeeds iff every entry of the table suffix
resolves (under primary or fallback name) to a valid-UTF-8 template. -/
theorem populateAux_ok_iff (s : Strings) (ks : List KeyEntry) (m0 : EscMap) :
    (∃ m, populateAux s ks m0 = .ok m) ↔
      ∀ e ∈ ks, (resolveSeq s e).isSome := by
  induction ks generalizing m0 with
  | nil =>
    constructor
    · intro _ e he
      exact absurd he (List.not_mem_nil e)
    · intro _
      exact ⟨m0, rfl⟩
  | cons e rest ih =>
    constructor
    · rintro ⟨m, hm⟩
      rw [populateAux] at hm
      cases hstep : populateStep s m0 e with
      | error err => rw [hstep] at hm; simp at hm
      | ok m1 =>
        rw [hstep] at hm
        obtain ⟨seq, hres, _⟩ := populateStep_ok_inv s m0 m1 e hstep
        intro e' he'
        rcases List.mem_cons.mp he' with rfl | hmem
        · simp [hres]
        · exact ((ih m1).mp ⟨m, hm⟩) e' hmem
    · intro hall
      have hres := hall e (List.mem_cons_self e rest)
      obtain ⟨seq, hseq⟩ := Option.isSome_iff_exists.mp hres
      obtain ⟨m, hm⟩ := (ih (m0.insert seq e.event)).mpr
        (fun e' he' => hall e' (List.mem_cons_of_mem e he'))
      refine ⟨m, ?_⟩
      rw [populateAux, populateStep_ok s m0 e seq hseq]
      exact hm

/-- The central map invariant: after a successful populate loop, lookup
at `seq` yields the event of the last entry registering `seq`, falling
back to the initial map when no entry does. -/
theorem populateAux_get (s : Strings) (ks : List KeyEntry) (m0 m : EscMap)
    (seq : List Char) (h : populateAux s ks m0 = .ok m) :
    m.get seq = (lastRegistered s ks seq).or (m0.get seq) := by
  induction ks generalizing m0 with
  | nil =>
    rw [populateAux] at h
    cases h
    simp [lastRegistered]
  | cons e rest ih =>
    rw [populateAux] at h
    cases hstep : populateStep s m0 e with
    | error err => rw [hstep] at h; simp at h
    | ok m1 =>
      rw [hstep] at h
      have h2 : populateAux s rest m1 = .ok m := h
      have hget := ih m1 h2
      obtain ⟨seq0, hres, hm1⟩ := populateStep_ok_inv s m0 m1 e hstep
      cases hlr : lastRegistered s rest seq with
      | some v =>
        have hcons : lastRegistered s (e :: rest) seq = some v := by
          simp [lastRegistered, hlr]
        rw [hcons]
        rw [hlr] at hget
        simpa using hget
      | none =>
        rw [hlr] at hget
        simp only [Option.none_or] at hget
        by_cases hseq : seq = seq0
        · subst hseq
          have hcons : lastRegistered s (e :: rest) seq = some e.event := by
            simp [lastRegistered, hlr, hres]
          rw [hcons, hget, hm1, EscMap.get_insert]
          simp
        · have hneq : ¬ (resolveSeq s e = some seq) := by
            rw [hres]
            intro hc
            exact hseq (Option.some.inj hc).symm
          have hcons : lastRegistered s (e :: rest) seq = none := by
            simp [lastRegistered, hlr, hneq]
          rw [hcons, hget, hm1, EscMap.get_insert]
          simp [hseq]

/-! ### Further helper lemmas -/

/-- Lookup in the empty map misses. -/
theorem escMap_get_nil (seq : List Char) : EscMap.get [] seq = none := rfl

/-- Decimal printing by `%d` of a parameter that was a natural and was incremented
by `%i`. -/
theorem intDecimal_cast_add_one (n : Nat) :
    intDecimal ((n : Int) + 1) = natDecimal (n + 1) := rfl

/-- Decoding with `get_event` on ESCAPE followed by at least one character looks the
whole buffer up in the escape-sequence map. -/
theorem get_event_esc_cons (d : Driver) (c : Char) (cs : List Char) :
    d.get_event (ESCAPE :: c :: cs) =
      some (d.escape_seq_map.get (ESCAPE :: c :: cs)) := by
  simp [Driver.get_event]

/-- Decoding with `get_event` on the one-character buffer `[ESCAPE]` is the literal
escape character. -/
theorem get_event_esc_alone (d : Driver) :
    d.get_event [ESCAPE] = some (some (Event.Char ESCAPE)) := by
  simp [Driver.get_event]

/-- Decoding with `get_event` on a buffer not starting with ESCAPE returns the first
character, whatever follows. -/
theorem get_event_not_esc (d : Driver) (c : Char) (cs : List Char)
    (h : c ≠ ESCAPE) :
    d.get_event (c :: cs) = some (some (Event.Char c)) := by
  simp [Driver.get_event, h]

/-- The constructor `Driver::new` packages a successful populate result. -/
theorem Driver.new_ok (s : Strings) (m : EscMap)
    (h : populate_escape_seq_map s = .ok m) :
    Driver.new s = .ok ⟨s, m⟩ := by
  rw [Driver.new, h]

/-- Inversion of a successful `Driver::new`. -/
theorem Driver.new_ok_inv (s : Strings) (d : Driver)
    (h : Driver.new s = .ok d) :
    d.strings = s ∧ populate_escape_seq_map s = .ok d.escape_seq_map := by
  rw [Driver.new] at h
  split at h
  · simp at h
  · rename_i m hm
    have hd := Except.ok.inj h
    subst hd
    exact ⟨rfl, hm⟩

/-- Inversion of a failed `Driver::new`: the error is the populate
error. -/
theorem Driver.new_error_inv (s : Strings) (err : DriverError)
    (h : Driver.new s = .error err) :
    populate_escape_seq_map s = .error err := by
  rw [Driver.new] at h
  split at h
  · rename_i e he
    rw [he]
    simpa using h
  · simp at h

/-- The keys of an association-list map. -/
def EscMap.keys (m : EscMap) : List (List Char) := m.map Prod.fst

/-- Replacing insert keeps the keys pairwise distinct. -/
theorem keys_insert_nodup (m : EscMap) (k : List Char) (v : Event)
    (h : m.keys.Nodup) : ((m.insert k v).keys).Nodup := by
  refine List.nodup_cons.mpr ⟨?_, ?_⟩
  · intro hk
    obtain ⟨p, hp, hpk⟩ := List.mem_map.mp hk
    have hne := List.of_mem_filter hp
    simp only [ne_eq, decide_not, Bool.not_eq_true', decide_eq_false_iff_not] at hne
    exact hne hpk
  · exact h.sublist (List.Sublist.map Prod.fst (List.filter_sublist m))

/-- The populate loop keeps the keys pairwise distinct. -/
theorem populateAux_keys_nodup (s : Strings) (ks : List KeyEntry)
    (m0 m : EscMap) (h0 : m0.keys.Nodup)
    (h : populateAux s ks m0 = .ok m) : m.keys.Nodup := by
  induction ks generalizing m0 with
  | nil =>
    rw [populateAux] at h
    cases h
    exact h0
  | cons e rest ih =>
    rw [populateAux] at h
    cases hstep : populateStep s m0 e with
    | error err => rw [hstep] at h; simp at h
    | ok m1 =>
      rw [hstep] at h
      obtain ⟨seq0, -, hm1⟩ := populateStep_ok_inv s m0 m1 e hstep
      exact ih m1 (hm1 ▸ keys_insert_nodup m0 seq0 e.event h0) h

/-- With pairwise distinct keys, a key determines its event: the map
binds each key to exactly one event. -/
theorem nodup_keys_unique (m : EscMap) (h : m.keys.Nodup)
    (k : List Char) (v1 v2 : Event)
    (h1 : (k, v1) ∈ m) (h2 : (k, v2) ∈ m) : v1 = v2 := by
  induction m with
  | nil => simp at h1
  | cons p rest ih =>
    have hnd := List.nodup_cons.mp h
    rcases List.mem_cons.mp h1 with he1 | hm1 <;>
      rcases List.mem_cons.mp h2 with he2 | hm2
    · rw [← he2] at he1
      exact congrArg Prod.snd he1
    · exfalso
      apply hnd.1
      rw [← he1]
      exact List.mem_map.mpr ⟨(k, v2), hm2, rfl⟩
    · exfalso
      apply hnd.1
      rw [← he2]
      exact List.mem_map.mpr ⟨(k, v1), hm1, rfl⟩
    · exact ih hnd.2 hm1 hm2

/-- If every entry of the table resolves to some byte template, a
populate failure can only be the invalid-encoding error. -/
theorem populateAux_error_invalid (s : Strings) (ks : List KeyEntry)
    (m0 : EscMap) (err : DriverError)
    (h : populateAux s ks m0 = .error err)
    (hb : ∀ e ∈ ks, (resolveBytes s e).isSome) :
    err.isInvalidData = true := by
  induction ks generalizing m0 with
  | nil => rw [populateAux] at h; simp at h
  | cons e rest ih =>
    rw [populateAux] at h
    cases hstep : populateStep s m0 e with
    | ok m1 =>
      rw [hstep] at h
      exact ih m1 h (fun e' he' => hb e' (List.mem_cons_of_mem e he'))
    | error err1 =>
      rw [hstep] at h
      have herr : err1 = err := by simpa using h
      subst herr
      rw [populateStep] at hstep
      split at hstep
      · rename_i hrb
        have := hb e (List.mem_cons_self e rest)
        rw [hrb] at this
        simp at this
      · rename_i bytes hrb
        split at hstep
        · rename_i hu
          have herr1 := Except.error.inj hstep.symm
          rw [herr1]
          rfl
        · simp at hstep

/-- In the key table, every `Function` event carries a number between 1
and 12. -/
theorem function_mem_range (n : Nat)
    (hn : Event.Function n ∈ KEYS.map KeyEntry.event) :
    1 ≤ n ∧ n ≤ 12 := by
  simp [KEYS] at hn
  rcases hn with rfl | rfl | rfl | rfl | rfl | rfl | rfl | rfl | rfl |
    rfl | rfl | rfl <;> omega

/-! ### The claims -/

/-- C1 as stated is false: in `dupStrings` every key-table entry
resolves (in particular `kf1` is provided), `Driver::new` succeeds, yet
decoding the stored decoded sequence of the `Function 1` entry
(`ESC O P`) yields `Function 2`, because the later colliding entry
overwrote it. -/
theorem c1_counterexample :
    (Strings.get dupStrings "kf1").isSome = true ∧
    resolveSeq dupStrings ⟨Event.Function 1, "key_f1", "kf1"⟩ =
      some (chars [27, 79, 80]) ∧
    Driver.new dupStrings = Except.ok dupDriver ∧
    Driver.get_event dupDriver (chars [27, 79, 80]) =
      some (some (Event.Function 2)) ∧
    ¬ Driver.get_event dupDriver (chars [27, 79, 80]) =
      some (some (Event.Function 1)) :=
  ⟨by decide, by decide, rfl, by decide, by decide⟩

/-- C1 (amended): if every key-table entry resolves to a valid-UTF-8
template, `Driver::new` succeeds; and decoding exactly the stored
decoded sequence of an entry returns that entry's event, provided the
sequence starts with ESCAPE followed by at least one character, and
every entry resolving to that same sequence carries the same event. -/
theorem c1_key_table_decode (s : Strings) (e : KeyEntry)
    (c : Char) (cs : List Char)
    (hall : ∀ e' ∈ KEYS, (resolveSeq s e').isSome)
    (hmem : e ∈ KEYS)
    (hseq : resolveSeq s e = some (ESCAPE :: c :: cs))
    (huniq : ∀ e' ∈ KEYS, resolveSeq s e' = some (ESCAPE :: c :: cs) →
      e'.event = e.event) :
    (Driver.new s).isOk = true ∧
    (Driver.new s).map (fun d => d.get_event (ESCAPE :: c :: cs)) =
      Except.ok (some (some e.event)) := by
  obtain ⟨m, hm⟩ := (populateAux_ok_iff s KEYS []).mpr hall
  have hnew := Driver.new_ok s m hm
  have hget := populateAux_get s KEYS [] m (ESCAPE :: c :: cs) hm
  rw [escMap_get_nil, Option.or_none] at hget
  have hlast : lastRegistered s KEYS (ESCAPE :: c :: cs) = some e.event := by
    cases hlr : lastRegistered s KEYS (ESCAPE :: c :: cs) with
    | none =>
      exact absurd hseq (lastRegistered_eq_none s KEYS _ hlr e hmem)
    | some v =>
      obtain ⟨e', he', hs', hev'⟩ := lastRegistered_eq_some s KEYS _ v hlr
      rw [← hev']
      exact congrArg some (huniq e' he' hs')
  rw [hnew]
  refine ⟨rfl, ?_⟩
  have hdec : Driver.get_event ⟨s, m⟩ (ESCAPE :: c :: cs) =
      some (some e.event) := by
    rw [get_event_esc_cons]
    show some (m.get (ESCAPE :: c :: cs)) = some (some e.event)
    rw [hget, hlast]
  rw [Except.map, hdec]

/-- Witness for C1: the xterm table resolves all twenty entries; the
`Up` entry's sequence `ESC O A` decodes back to `Event.Up`. -/
theorem c1_witness :
    (Driver.new xtermStrings).isOk = true ∧
    (Driver.new xtermStrings).map
      (fun d => d.get_event (ESCAPE :: Char.ofNat 79 :: [Char.ofNat 65])) =
      Except.ok (some (some Event.Up)) :=
  c1_key_table_decode xtermStrings ⟨Event.Up, "key_up", "kcuu1"⟩
    (Char.ofNat 79) [Char.ofNat 65] (by decide) (by decide) (by decide)
    (by decide)

/-- On values below `2^31` the `usize as i32` cast is the identity. -/
theorem usizeAsI32_of_lt (n : Nat) (h : n < 2 ^ 31) :
    usizeAsI32 n = Int.ofNat n := by
  have h32 : n % 2 ^ 32 = n := Nat.mod_eq_of_lt (lt_trans h (by norm_num))
  rw [usizeAsI32, h32, if_pos h]

/-- C2 as stated is false for coordinates at or above `2^31`: the
source casts with `y as i32`, so `SetCursor(0, 2^31)` against the
standard `cup` template prints the wrapped row `-2147483648`
incremented by `%i` to `-2147483647` — the bytes
`ESC [ -2147483647 ; 1 H` — not an encoding of row `y = 2^31`
(which would print `2147483649`). -/
theorem c2_counterexample :
    Driver.get ⟨cupStrings, []⟩ (DevFn.SetCursor 0 (2 ^ 31)) =
      some (some [27, 91, 45, 50, 49, 52, 55, 52, 56, 51, 54, 52, 55,
        59, 49, 72]) ∧
    ¬ Driver.get ⟨cupStrings, []⟩ (DevFn.SetCursor 0 (2 ^ 31)) =
      some (some ([0x1b, 0x5b] ++ natDecimal (2 ^ 31 + 1) ++ [0x3b] ++
        natDecimal (0 + 1) ++ [0x48])) := by
  constructor
  · decide
  · decide

/-- C2 (amended): rendering `SetCursor(x, y)` evaluates the cursor
capability with the ordered, `as i32`-cast parameter list `[y, x]` —
row first — so for coordinates below `2^31`, where the cast does not
wrap, the standard xterm `cup` template produces row `y+1` before
column `x+1` (the `%i` code makes the coordinates 1-based). -/
theorem c2_set_cursor (d : Driver) (x y : Nat)
    (h : Strings.get d.strings "cup" = some stdCupTemplate)
    (hx : x < 2 ^ 31) (hy : y < 2 ^ 31) :
    d.get (DevFn.SetCursor x y) =
      some (some ([0x1b, 0x5b] ++ natDecimal (y + 1) ++ [0x3b] ++
        natDecimal (x + 1) ++ [0x48])) := by
  simp only [Driver.get, DevFn.as_str, h, usizeAsI32_of_lt x hx,
    usizeAsI32_of_lt y hy]
  simp [stdCupTemplate, expand, intDecimal_cast_add_one]

/-- Witness for C2: `SetCursor(5, 2)` against the standard template
renders `ESC [ 3 ; 6 H` — row `2+1` before column `5+1`. -/
theorem c2_witness :
    Driver.get ⟨cupStrings, []⟩ (DevFn.SetCursor 5 2) =
      some (some [27, 91, 51, 59, 54, 72]) :=
  (c2_set_cursor ⟨cupStrings, []⟩ 5 2 rfl (by decide) (by decide)).trans
    (by decide)

/-- C3: `render` returns `None` — rather than panicking — exactly when
the strings table lacks the variant's capability name, and the
capability name consulted depends only on the variant, never on the
carried parameters. -/
theorem c3_render_none_iff (d : Driver) (dfn : DevFn) :
    (d.get dfn = some none ↔
      Strings.get d.strings (DevFn.as_str dfn) = none) ∧
    (∀ x y x' y' : Nat,
      (DevFn.SetCursor x y).as_str = (DevFn.SetCursor x' y').as_str) ∧
    (∀ a a' : Nat, (DevFn.SetFg a).as_str = (DevFn.SetFg a').as_str) ∧
    (∀ a a' : Nat, (DevFn.SetBg a).as_str = (DevFn.SetBg a').as_str) := by
  refine ⟨?_, fun _ _ _ _ => rfl, fun _ _ => rfl, fun _ _ => rfl⟩
  cases hcap : Strings.get d.strings (DevFn.as_str dfn) with
  | none => simp [Driver.get, hcap]
  | some cap =>
    constructor
    · intro hc
      rw [Driver.get, hcap] at hc
      cases dfn <;> simp [Option.map_eq_some'] at hc
    · intro hc
      exact absurd hc (by simp)

/-- C4 as stated is false in one respect: in `missingStrings` the later
entry `kf2` resolves to bytes that are not valid UTF-8, yet construction
fails with the missing-capability (`NotFound`) error of the earlier
unresolved `kf1` entry, not with an invalid-encoding error. -/
theorem c4_counterexample :
    resolveBytes missingStrings ⟨Event.Function 2, "key_f2", "kf2"⟩ =
      some [0xFF] ∧
    utf8Decode [0xFF] = none ∧
    Driver.new missingStrings =
      Except.error (DriverError.notFound "key_f1" "kf1") ∧
    isInvalidDataError (Driver.new missingStrings) = false :=
  ⟨by decide, by decide, rfl, by decide⟩

/-- C4 (amended): construction succeeds exactly when every key-table
entry resolves to a valid-UTF-8 template (so it never succeeds with a
partial key map); and when every entry resolves to some template but
one is invalid UTF-8, construction fails with the invalid-encoding
error. -/
theorem c4_construction (s : Strings) :
    ((Driver.new s).isOk = true ↔ ∀ e ∈ KEYS, (resolveSeq s e).isSome) ∧
    ((∀ e ∈ KEYS, (resolveBytes s e).isSome) →
      (∃ e ∈ KEYS, resolveSeq s e = none) →
      isInvalidDataError (Driver.new s) = true) := by
  constructor
  · constructor
    · intro hok
      cases hnew : Driver.new s with
      | error err => rw [hnew] at hok; simp [Except.isOk, Except.toBool] at hok
      | ok d =>
        obtain ⟨-, hpop⟩ := Driver.new_ok_inv s d hnew
        exact (populateAux_ok_iff s KEYS []).mp ⟨_, hpop⟩
    · intro hall
      obtain ⟨m, hm⟩ := (populateAux_ok_iff s KEYS []).mpr hall
      rw [Driver.new_ok s m hm]
      rfl
  · rintro hb ⟨e0, he0, hseq0⟩
    cases hnew : Driver.new s with
    | ok d =>
      obtain ⟨-, hpop⟩ := Driver.new_ok_inv s d hnew
      have := (populateAux_ok_iff s KEYS []).mp ⟨_, hpop⟩ e0 he0
      rw [hseq0] at this
      simp at this
    | error err =>
      have hpe := Driver.new_error_inv s err hnew
      exact populateAux_error_invalid s KEYS [] err hpe hb

/-- Witness for C4: the full xterm table constructs successfully, and
`invalidStrings` — where every entry resolves but `kf2` is invalid
UTF-8 — fails with the invalid-encoding error. -/
theorem c4_witness :
    (Driver.new xtermStrings).isOk = true ∧
    isInvalidDataError (Driver.new invalidStrings) = true :=
  ⟨((c4_construction xtermStrings).1).mpr (by decide),
   (c4_construction invalidStrings).2 (by decide) (by decide)⟩

/-- C5: on a buffer of ESCAPE followed by at least one character,
decode looks the entire buffer up verbatim in the escape-sequence map —
the result is `Some` of the mapped event when the whole buffer is a
registered key and `None` otherwise, with no prefix or partial
matching. -/
theorem c5_whole_buffer_lookup (d : Driver) (c : Char) (cs : List Char) :
    d.get_event (ESCAPE :: c :: cs) =
      some (d.escape_seq_map.get (ESCAPE :: c :: cs)) :=
  get_event_esc_cons d c cs

/-- C6: a buffer of exactly one ESCAPE decodes to `Char(ESCAPE)`, and a
buffer starting with any non-ESCAPE character decodes to `Char` of that
first character, whatever trails it. -/
theorem c6_char_decoding (d : Driver) (c : Char) (cs : List Char)
    (h : c ≠ ESCAPE) :
    d.get_event [ESCAPE] = some (some (Event.Char ESCAPE)) ∧
    d.get_event (c :: cs) = some (some (Event.Char c)) :=
  ⟨get_event_esc_alone d, get_event_not_esc d c cs h⟩

/-- Witness for C6 on a concrete driver and buffer. -/
theorem c6_witness :
    ('a' ≠ ESCAPE) ∧
    Driver.get_event emptyDriver [ESCAPE] =
      some (some (Event.Char ESCAPE)) ∧
    Driver.get_event emptyDriver ['a', 'b'] =
      some (some (Event.Char 'a')) :=
  ⟨by decide, (c6_char_decoding emptyDriver 'a' ['b'] (by decide)).1,
   (c6_char_decoding emptyDriver 'a' ['b'] (by decide)).2⟩

/-- C7: decode on the empty buffer is the panic (modelled by the outer
`none`), and on any non-empty buffer it returns a value — the panic
branch is unreachable. -/
theorem c7_empty_panics (d : Driver) (buf : List Char) (h : buf ≠ []) :
    d.get_event [] = none ∧ (d.get_event buf).isSome = true := by
  refine ⟨rfl, ?_⟩
  cases buf with
  | nil => exact absurd rfl h
  | cons c cs => simp [Driver.get_event]

/-- Witness for C7 on a concrete driver and buffer. -/
theorem c7_witness :
    ((['a'] : List Char) ≠ []) ∧
    Driver.get_event emptyDriver [] = none ∧
    (Driver.get_event emptyDriver ['a']).isSome = true :=
  ⟨by decide, (c7_empty_panics emptyDriver ['a'] (by decide)).1,
   (c7_empty_panics emptyDriver ['a'] (by decide)).2⟩

/-- C8: after successful construction the escape-sequence map binds
each key to exactly one event (its keys are pairwise distinct), and
lookup returns the event of the last key-table entry (in table
iteration order) whose resolved sequence equals the key — later
registrations silently overwrite earlier ones. -/
theorem c8_last_registration_wins (s : Strings) (d : Driver)
    (h : Driver.new s = Except.ok d) (seq : List Char) :
    d.escape_seq_map.get seq =
      ((KEYS.filter (fun e => resolveSeq s e = some seq)).getLast?).map
        (fun e => e.event) ∧
    (d.escape_seq_map.keys).Nodup ∧
    (∀ v1 v2, (seq, v1) ∈ d.escape_seq_map →
      (seq, v2) ∈ d.escape_seq_map → v1 = v2) := by
  obtain ⟨-, hpop⟩ := Driver.new_ok_inv s d h
  have hget := populateAux_get s KEYS [] d.escape_seq_map seq hpop
  rw [escMap_get_nil, Option.or_none, lastRegistered_eq_getLast] at hget
  have hnd := populateAux_keys_nodup s KEYS [] d.escape_seq_map
    (by simp [EscMap.keys]) hpop
  exact ⟨hget, hnd,
    fun v1 v2 h1 h2 => nodup_keys_unique d.escape_seq_map hnd seq v1 v2 h1 h2⟩

/-- Witness for C8: with `kf1` and `kf2` both `ESC O P`, construction
still succeeds and the collision resolves to `Function 2`, the entry
registered later. -/
theorem c8_witness :
    Driver.new dupStrings = Except.ok dupDriver ∧
    EscMap.get dupDriver.escape_seq_map (chars [27, 79, 80]) =
      some (Event.Function 2) ∧
    EscMap.get dupDriver.escape_seq_map (chars [27, 79, 80]) =
      ((KEYS.filter
        (fun e => resolveSeq dupStrings e = some (chars [27, 79, 80]))).getLast?).map
        (fun e => e.event) :=
  ⟨rfl, by decide,
   (c8_last_registration_wins dupStrings dupDriver rfl
     (chars [27, 79, 80])).1⟩

/-- C9: a registered sequence that does not begin with ESCAPE, or is
the single ESCAPE character, is never matched by decode: decode returns
`Char` of its first character instead of the stored event. -/
theorem c9_non_escape_sequences (d : Driver) (c : Char) (cs : List Char)
    (ev : Event)
    (hreg : d.escape_seq_map.get (c :: cs) = some ev)
    (h : c ≠ ESCAPE ∨ cs = []) :
    d.get_event (c :: cs) = some (some (Event.Char c)) := by
  rcases h with h | rfl
  · exact get_event_not_esc d c cs h
  · by_cases hc : c = ESCAPE
    · subst hc
      exact get_event_esc_alone d
    · exact get_event_not_esc d c [] hc

/-- Witness for C9: a driver whose map registers the sequence `"a"`
mapped to `Function 1`; decode on `"a"` returns `Char 'a'`, not
`Function 1`. -/
theorem c9_witness :
    EscMap.get charDriver.escape_seq_map (chars [0x61]) =
      some (Event.Function 1) ∧
    Driver.get_event charDriver (chars [0x61]) =
      some (some (Event.Char 'a')) :=
  ⟨by decide,
   c9_non_escape_sequences charDriver 'a' [] (Event.Function 1) (by decide)
     (Or.inr rfl)⟩

/-- C10: after successful construction, every event stored in the
escape-sequence map is one of the twenty key-table events; decode never
returns `Function n` with `n` outside `1..12`; and every decoded event
is either a `Char` or comes from the key table. -/
theorem c10_events_from_table (s : Strings) (d : Driver)
    (h : Driver.new s = Except.ok d) :
    (∀ seq ev, d.escape_seq_map.get seq = some ev →
      ev ∈ KEYS.map KeyEntry.event) ∧
    (∀ buf n, d.get_event buf = some (some (Event.Function n)) →
      1 ≤ n ∧ n ≤ 12) ∧
    (∀ buf ev, d.get_event buf = some (some ev) →
      (∃ c, ev = Event.Char c) ∨ ev ∈ KEYS.map KeyEntry.event) := by
  obtain ⟨-, hpop⟩ := Driver.new_ok_inv s d h
  have hmap : ∀ seq ev, d.escape_seq_map.get seq = some ev →
      ev ∈ KEYS.map KeyEntry.event := by
    intro seq ev hg
    have hget := populateAux_get s KEYS [] d.escape_seq_map seq hpop
    rw [escMap_get_nil, Option.or_none, hg] at hget
    obtain ⟨e, he, -, hev⟩ := lastRegistered_eq_some s KEYS seq ev hget.symm
    exact List.mem_map.mpr ⟨e, he, hev⟩
  have hdecode : ∀ buf ev, d.get_event buf = some (some ev) →
      (∃ c, ev = Event.Char c) ∨ ev ∈ KEYS.map KeyEntry.event := by
    intro buf ev hg
    cases buf with
    | nil => simp [Driver.get_event] at hg
    | cons c cs =>
      by_cases hc : c = ESCAPE
      · subst hc
        cases cs with
        | nil =>
          rw [get_event_esc_alone] at hg
          exact Or.inl ⟨ESCAPE, by simpa using hg.symm⟩
        | cons c2 cs2 =>
          rw [get_event_esc_cons] at hg
          exact Or.inr (hmap _ ev (Option.some.inj hg))
      · rw [get_event_not_esc d c cs hc] at hg
        exact Or.inl ⟨c, by simpa using hg.symm⟩
  refine ⟨hmap, ?_, hdecode⟩
  intro buf n hg
  rcases hdecode buf (Event.Function n) hg with ⟨c, hcc⟩ | hmem
  · exact absurd hcc (by simp)
  · exact function_mem_range n hmem

/-- Witness for C10: on the xterm driver, `F12` decodes within bounds
and `Up` is a key-table event stored in the map. -/
theorem c10_witness :
    Driver.new xtermStrings = Except.ok xtermDriver ∧
    (1 ≤ 12 ∧ 12 ≤ 12) ∧
    Event.Up ∈ KEYS.map KeyEntry.event :=
  ⟨rfl,
   (c10_events_from_table xtermStrings xtermDriver rfl).2.1
     (chars [27, 91, 50, 52, 126]) 12 (by decide),
   (c10_events_from_table xtermStrings xtermDriver rfl).1
     (chars [27, 79, 65]) Event.Up (by decide)⟩

end Rustty
